import Mathlib

/-!
Shallow embedding of the ReVamp backend routes (`src/routes/api.js`) and the
claims of the design spec about its identity-resolution and
ownership-authorization core.

Conventions of the embedding:
* JavaScript falsy-or-string option values are `Option String`; `none` models
  `undefined`/`null`, and the JS coercions `x || null` / `x || d` are the
  functions `jsOrNull` / `jsOrStr` (an empty string is falsy).
* The Prisma store is the structure `DB` (users, cats, products as lists);
  `findUnique` is `List.find?` on the id, `include \x7b owner: true \x7d` is the
  explicit relation resolution `catOwner` / `productOwner` through `ownerId`.
* Each Express handler is a pure function from the session
  (`Option OidcUser`: `some u` models `req.oidc?.isAuthenticated()` being true
  with `req.oidc.user = u`), the path parameter, the request body and the
  current `DB` to an `HOut`: HTTP status, resulting `DB`, and the ordered
  trace of storage and blob-store effects the handler performed.
* `del` from `@vercel/blob` is modelled by an oracle `blobFails : String → Bool`
  telling which removal calls throw; handlers catch those failures.
* Floating point prices are modelled as integers; no claim depends on
  fractional or NaN price values.
-/

namespace ReVamp

/-- An authenticated session principal (`req.oidc.user`): external subject
identifier plus provider-supplied profile fields. -/
structure OidcUser where
  sub : String
  email : Option String
  name : Option String
  picture : Option String
deriving Repr, DecidableEq

/-- A stored user row (Prisma `user` model): internal `id`, unique external
`sub`, and the cached profile fields. -/
structure User where
  id : String
  sub : String
  email : Option String
  name : Option String
  picture : Option String
deriving Repr, DecidableEq

/-- A stored cat row (the configured `model = 'cats'`): identifier, optional
owner reference, and the remaining document fields as a key/value list
(`name`, `imageUrl`, ... live in `fields`). -/
structure Cat where
  id : String
  ownerId : Option String
  fields : List (String × String)
deriving Repr, DecidableEq

/-- A stored product row (Prisma `product` model). -/
structure Product where
  id : String
  ownerId : Option String
  title : String
  description : String
  price : Int
  images : List String
  status : String
deriving Repr, DecidableEq

/-- The Prisma/MongoDB store. -/
structure DB where
  users : List User
  cats : List Cat
  products : List Product
deriving Repr, DecidableEq

/-- One observable storage or blob-store effect of a handler, in order. -/
inductive Effect where
  | fetch (table id : String)
  | dbCreate (table id : String)
  | dbUpdate (table id : String)
  | dbDelete (table id : String)
  | userUpsert (sub : String)
  | blobDel (url : String) (failed : Bool)
deriving Repr, DecidableEq

/-- Result of running a handler: HTTP status code, resulting store, and the
ordered effect trace. -/
structure HOut where
  status : Nat
  db : DB
  trace : List Effect
deriving Repr, DecidableEq

/-- JavaScript `x || null` on an option string: the empty string is falsy and
collapses to `null`. -/
def jsOrNull : Option String → Option String
  | some s => if s = "" then none else some s
  | none => none

/-- JavaScript `x || d` with a string default. -/
def jsOrStr (x : Option String) (d : String) : String :=
  match x with
  | some s => if s = "" then d else s
  | none => d

/-- `prisma.user.upsert(\x7b where: \x7b sub \x7d, update, create \x7d)`: a single atomic
conditional write keyed on `sub`.  `freshId` is the id MongoDB would mint on
create.  Returns the updated store and the resulting row. -/
def userUpsert (users : List User) (freshId sub : String)
    (email name picture : Option String) : List User × User :=
  match users.find? (fun u => u.sub == sub) with
  | some u =>
      (users.map (fun v =>
        if v.sub == sub then
          { v with email := email, name := name, picture := picture }
        else v),
       { u with email := email, name := name, picture := picture })
  | none =>
      (users ++ [⟨freshId, sub, email, name, picture⟩],
       ⟨freshId, sub, email, name, picture⟩)

/-- `ensureUser(oidcUser)` from `src/routes/api.js`: throws unless the
principal is present with a truthy `sub`; otherwise performs the single
upsert keyed on `sub`, normalising each profile field with `|| null`.
Returns the thrown-or-returned user, the resulting user store, and the
storage-write trace. -/
def ensureUser (oidcUser : Option OidcUser) (users : List User) (freshId : String) :
    Except String User × List User × List Effect :=
  match oidcUser with
  | none => (.error "Cannot ensure user without a valid Auth0 sub", users, [])
  | some u =>
      if u.sub = "" then
        (.error "Cannot ensure user without a valid Auth0 sub", users, [])
      else
        ((userUpsert users freshId u.sub (jsOrNull u.email) (jsOrNull u.name)
            (jsOrNull u.picture)).2 |> .ok,
         (userUpsert users freshId u.sub (jsOrNull u.email) (jsOrNull u.name)
            (jsOrNull u.picture)).1,
         [.userUpsert u.sub])

/-- Rest-spread destructuring that drops the listed keys from a request body. -/
def removeKeys (ks : List String) (body : List (String × String)) :
    List (String × String) :=
  body.filter (fun kv => !(ks.contains kv.1))

/-- `const \x7b id, ownerId, owner, ...createData \x7d = req.body` (create path). -/
def createData (body : List (String × String)) : List (String × String) :=
  removeKeys ["id", "ownerId", "owner"] body

/-- `const \x7b id, _id, ownerId, owner, ...requestBody \x7d = req.body || \x7b\x7d` (update path). -/
def requestBody (body : List (String × String)) : List (String × String) :=
  removeKeys ["id", "_id", "ownerId", "owner"] body

/-- Set one document field (later writes shadow earlier values). -/
def setField (fields : List (String × String)) (k v : String) :
    List (String × String) :=
  (k, v) :: fields.filter (fun kv => kv.1 != k)

/-- Prisma `update(\x7b data \x7d)` applied to the document fields: every key in
`data` is written, in order. -/
def applyData (fields data : List (String × String)) : List (String × String) :=
  data.foldl (fun fs kv => setField fs kv.1 kv.2) fields

/-- Read one document field of a cat row. -/
def getField (c : Cat) (k : String) : Option String :=
  List.lookup k c.fields

/-- The `name` column of a cat row (schema-required; absence modelled as ""). -/
def Cat.name (c : Cat) : String :=
  (List.lookup "name" c.fields).getD ""

/-- `cat.imageUrl` as tested by `if (cat.imageUrl)`: absent or empty is falsy. -/
def Cat.imageUrl (c : Cat) : Option String :=
  jsOrNull (List.lookup "imageUrl" c.fields)

/-- `prisma[model].findUnique(\x7b where: \x7b id \x7d \x7d)` for cats. -/
def findCat (db : DB) (rid : String) : Option Cat :=
  db.cats.find? (fun c => c.id == rid)

/-- `prisma.product.findUnique(\x7b where: \x7b id \x7d \x7d)`. -/
def findProduct (db : DB) (pid : String) : Option Product :=
  db.products.find? (fun p => p.id == pid)

/-- `include: \x7b owner: true \x7d` on a cat: resolve the owner relation. -/
def catOwner (db : DB) (c : Cat) : Option User :=
  match c.ownerId with
  | none => none
  | some oid => db.users.find? (fun u => u.id == oid)

/-- `include: \x7b owner: true \x7d` on a product. -/
def productOwner (db : DB) (p : Product) : Option User :=
  match p.ownerId with
  | none => none
  | some oid => db.users.find? (fun u => u.id == oid)

/-- `prisma[model].update` on the cat with the given id. -/
def updateCats (cats : List Cat) (rid : String) (data : List (String × String)) :
    List Cat :=
  cats.map (fun c => if c.id == rid then { c with fields := applyData c.fields data } else c)

/-- `prisma[model].delete` on the cat with the given id. -/
def deleteCats (cats : List Cat) (rid : String) : List Cat :=
  cats.filter (fun c => !(c.id == rid))

/-- `prisma.product.delete` on the product with the given id. -/
def deleteProducts (ps : List Product) (pid : String) : List Product :=
  ps.filter (fun p => !(p.id == pid))

/-- Blob cleanup of `DELETE /data/:id`: `if (cat.imageUrl) \x7b try del ... \x7d`;
the `failed` flag records whether that `del` call threw (it is caught). -/
def catBlobTrace (c : Cat) (blobFails : String → Bool) : List Effect :=
  match c.imageUrl with
  | none => []
  | some url => [.blobDel url (blobFails url)]

/-- Blob cleanup loop of `DELETE /api/products/:id`: one `del` attempt per
image, each wrapped in its own try/catch. -/
def productBlobTrace (p : Product) (blobFails : String → Bool) : List Effect :=
  p.images.map (fun url => .blobDel url (blobFails url))

/-- `PUT /data/:id`: authentication gate, sanitising destructuring, fetch with
owner included, 404 on absence, 403 unless the resolved owner's `sub` equals
the caller's `sub`, then the update. -/
def putData (auth : Option OidcUser) (rid : String) (body : List (String × String))
    (db : DB) : HOut :=
  match auth with
  | none => ⟨401, db, []⟩
  | some caller =>
      match findCat db rid with
      | none => ⟨404, db, [.fetch "cats" rid]⟩
      | some existing =>
          match catOwner db existing with
          | none => ⟨403, db, [.fetch "cats" rid]⟩
          | some ow =>
              if ow.sub = caller.sub then
                ⟨200, { db with cats := updateCats db.cats rid (requestBody body) },
                  [.fetch "cats" rid, .dbUpdate "cats" rid]⟩
              else ⟨403, db, [.fetch "cats" rid]⟩

/-- `DELETE /data/:id`: authentication gate, fetch with owner, 404/403 as in
the update handler, then the database delete followed by the tolerated blob
cleanup. -/
def deleteData (auth : Option OidcUser) (rid : String) (blobFails : String → Bool)
    (db : DB) : HOut :=
  match auth with
  | none => ⟨401, db, []⟩
  | some caller =>
      match findCat db rid with
      | none => ⟨404, db, [.fetch "cats" rid]⟩
      | some cat =>
          match catOwner db cat with
          | none => ⟨403, db, [.fetch "cats" rid]⟩
          | some ow =>
              if ow.sub = caller.sub then
                ⟨200, { db with cats := deleteCats db.cats rid },
                  .fetch "cats" rid :: .dbDelete "cats" rid :: catBlobTrace cat blobFails⟩
              else ⟨403, db, [.fetch "cats" rid]⟩

/-- `POST /data`: authentication gate, `ensureUser`, sanitising destructuring,
then the create stamped with the resolved owner's id.  `storeOk = false`
models the create call throwing (storage fault → 500). -/
def postData (auth : Option OidcUser) (body : List (String × String))
    (freshUserId freshCatId : String) (storeOk : Bool) (db : DB) : HOut :=
  match auth with
  | none => ⟨401, db, []⟩
  | some caller =>
      match ensureUser (some caller) db.users freshUserId with
      | (.error _, users2, tr) => ⟨500, { db with users := users2 }, tr⟩
      | (.ok user, users2, tr) =>
          if storeOk then
            let db2 : DB :=
              { users := users2
                cats := db.cats ++ [⟨freshCatId, some user.id, createData body⟩]
                products := db.products }
            ⟨201, db2, tr ++ [.dbCreate "cats" freshCatId]⟩
          else ⟨500, { db with users := users2 }, tr⟩

/-- `GET /data`: `findMany(\x7b take: 100, include: \x7b owner: true \x7d \x7d)`; the owner
join does not change which rows are returned. -/
def getData (db : DB) : List Cat :=
  db.cats.take 100

/-- Whether `needle` is a prefix of `hay` (on character lists). -/
def charsPrefix : List Char → List Char → Bool
  | [], _ => true
  | _ :: _, [] => false
  | a :: as, b :: bs => a == b && charsPrefix as bs

/-- Whether `needle` occurs as a contiguous run inside `hay`. -/
def charsContain (needle : List Char) : List Char → Bool
  | [] => needle.isEmpty
  | b :: bs => charsPrefix needle (b :: bs) || charsContain needle bs

/-- Prisma `contains` with `mode: 'insensitive'`: case-insensitive substring
containment of `needle` in `hay`. -/
def containsCI (hay needle : String) : Bool :=
  charsContain (needle.toList.map Char.toLower) (hay.toList.map Char.toLower)

/-- `orderBy: \x7b name: 'asc' \x7d` modelled as an insertion sort on the name. -/
def sortByName (l : List Cat) : List Cat :=
  l.insertionSort (fun a b => a.name ≤ b.name)

/-- `GET /search`: filter `name contains terms` (case-insensitive, terms
defaulting to the empty string via `req.query.terms || ''`), order by name
ascending, take 10. -/
def getSearch (terms : Option String) (db : DB) : List Cat :=
  (sortByName (db.cats.filter (fun c => containsCI c.name (jsOrStr terms "")))).take 10

/-- The name ordering used by `sortByName` is total. -/
instance : IsTotal Cat (fun a b => a.name ≤ b.name) :=
  ⟨fun a b => le_total a.name b.name⟩

/-- The name ordering used by `sortByName` is transitive. -/
instance : IsTrans Cat (fun a b => a.name ≤ b.name) :=
  ⟨fun _ _ _ h1 h2 => le_trans h1 h2⟩

/-- Body of `PUT /api/products/:id`
(`const \x7b title, description, price, status, images \x7d = req.body`); a `none`
field models `undefined`, which Prisma skips on update (the NaN produced by
`parseFloat(undefined)` is likewise modelled as skipping the price write;
no claim depends on that corner). -/
structure ProductPutBody where
  title : Option String
  description : Option String
  price : Option Int
  status : Option String
  images : Option (List String)
deriving Repr, DecidableEq

/-- Apply the `prisma.product.update` data of `PUT /api/products/:id`. -/
def applyProductPut (p : Product) (b : ProductPutBody) : Product :=
  { p with
      title := b.title.getD p.title
      description := b.description.getD p.description
      price := b.price.getD p.price
      status := b.status.getD p.status
      images := b.images.getD p.images }

/-- `prisma.product.update` on the product with the given id. -/
def updateProducts (ps : List Product) (pid : String) (b : ProductPutBody) :
    List Product :=
  ps.map (fun p => if p.id == pid then applyProductPut p b else p)

/-- The combined guard
`req.oidc?.isAuthenticated() && existing.owner && existing.owner.sub !== req.oidc.user.sub`
of the two `/api/products/:id` mutation handlers: forbidden only when a
session AND an owner are both present and the subjects differ. -/
def productForbidden (auth : Option OidcUser) (owner : Option User) : Bool :=
  match auth, owner with
  | some caller, some ow => !(ow.sub == caller.sub)
  | _, _ => false

/-- `PUT /api/products/:id`: fetch with owner included (404 on absence), the
`productForbidden` guard (note: no authentication gate), then the update. -/
def putApiProducts (auth : Option OidcUser) (pid : String) (b : ProductPutBody)
    (db : DB) : HOut :=
  match findProduct db pid with
  | none => ⟨404, db, [.fetch "products" pid]⟩
  | some existing =>
      if productForbidden auth (productOwner db existing) then
        ⟨403, db, [.fetch "products" pid]⟩
      else
        ⟨200, { db with products := updateProducts db.products pid b },
          [.fetch "products" pid, .dbUpdate "products" pid]⟩

/-- `DELETE /api/products/:id`: fetch with owner (404 on absence), the
`productForbidden` guard (no authentication gate), then the per-image blob
cleanup loop followed by the database delete — the cleanup runs BEFORE the
database delete in this handler. -/
def deleteApiProducts (auth : Option OidcUser) (pid : String)
    (blobFails : String → Bool) (db : DB) : HOut :=
  match findProduct db pid with
  | none => ⟨404, db, [.fetch "products" pid]⟩
  | some product =>
      if productForbidden auth (productOwner db product) then
        ⟨403, db, [.fetch "products" pid]⟩
      else
        ⟨200, { db with products := deleteProducts db.products pid },
          .fetch "products" pid ::
            (productBlobTrace product blobFails ++ [.dbDelete "products" pid])⟩

/-- Body of `POST /api/products`: the destructured fields the handler actually
stores (`variations`, `categories`, `shipping`... are destructured or parsed
but never written by the create call). -/
structure ProductPostBody where
  title : Option String
  description : Option String
  price : Option Int
  status : Option String
deriving Repr, DecidableEq

/-- The row written by `prisma.product.create` in `POST /api/products`:
defaults via `||`, `parseFloat(price) || 0`, images from `req.files`. -/
def mkProduct (pid : String) (b : ProductPostBody) (images : List String)
    (ownerId : Option String) : Product :=
  ⟨pid, ownerId, jsOrStr b.title "Untitled Product", jsOrStr b.description "",
    b.price.getD 0, images, jsOrStr b.status "active"⟩

/-- `POST /api/products`: no authentication gate; when a session exists the
owner is resolved through `ensureUser`, otherwise `ownerId` stays null and an
ownerless product is created.  `files` are the uploaded file locators
(`req.files`); `storeOk = false` models the create call throwing. -/
def postApiProducts (auth : Option OidcUser) (b : ProductPostBody)
    (files : List String) (freshUserId freshProductId : String) (storeOk : Bool)
    (db : DB) : HOut :=
  match auth with
  | some caller =>
      match ensureUser (some caller) db.users freshUserId with
      | (.error _, users2, tr) => ⟨500, { db with users := users2 }, tr⟩
      | (.ok user, users2, tr) =>
          if storeOk then
            let db2 : DB :=
              { users := users2
                cats := db.cats
                products := db.products ++ [mkProduct freshProductId b files (some user.id)] }
            ⟨201, db2, tr ++ [.dbCreate "products" freshProductId]⟩
          else ⟨500, { db with users := users2 }, tr⟩
  | none =>
      if storeOk then
        ⟨201, { db with products := db.products ++ [mkProduct freshProductId b files none] },
          [.dbCreate "products" freshProductId]⟩
      else ⟨500, db, []⟩

/-- Extract, in order, the blob locators whose removal a trace attempted. -/
def blobUrls : List Effect → List String
  | [] => []
  | .blobDel url _ :: es => url :: blobUrls es
  | _ :: es => blobUrls es

/-- Checks that a database delete occurs before every blob removal of a trace;
the flag carries whether a database delete has been seen already. -/
def dbDelFirst : Bool → List Effect → Bool
  | _, [] => true
  | seen, .blobDel _ _ :: es => seen && dbDelFirst seen es
  | _, .dbDelete _ _ :: es => dbDelFirst true es
  | seen, _ :: es => dbDelFirst seen es

/-! Concrete fixtures used by counterexamples and witnesses. -/

/-- A stored user row for Alice. -/
def aliceUser : User := ⟨"u1", "auth0|alice", some "alice@example.com", some "Alice", none⟩

/-- Alice's session principal (subject matches `aliceUser.sub`). -/
def aliceOidc : OidcUser := ⟨"auth0|alice", some "alice@example.com", some "Alice", none⟩

/-- Bob's session principal (no stored row needed; his subject differs). -/
def bobOidc : OidcUser := ⟨"auth0|bob", some "bob@example.com", some "Bob", none⟩

/-- A cat owned by Alice, with one image locator. -/
def catAbc : Cat :=
  ⟨"abc123", some "u1", [("name", "Whiskers"), ("imageUrl", "https://blob/cat.png")]⟩

/-- A cat whose owner reference is absent. -/
def catStray : Cat := ⟨"c2", none, [("name", "Stray")]⟩

/-- A product owned by Alice, with two image locators. -/
def prodP1 : Product :=
  ⟨"p1", some "u1", "Lamp", "old desc", 5, ["https://blob/p1a.png", "https://blob/p1b.png"], "active"⟩

/-- A product whose owner reference is absent. -/
def prodP2 : Product := ⟨"p2", none, "Chair", "", 3, ["https://blob/p2.png"], "active"⟩

/-- A small store holding all fixtures. -/
def db0 : DB := ⟨[aliceUser], [catAbc, catStray], [prodP1, prodP2]⟩

/-- A fully-populated product update body. -/
def putBodyFull : ProductPutBody :=
  ⟨some "New Lamp", some "new desc", some 9, some "active", some ["https://blob/n.png"]⟩

/-- The update body of the spec's `PUT /data/abc123` scenario. -/
def scenarioBody : List (String × String) :=
  [("id", "zzz"), ("ownerId", "other"), ("title", "New Title")]

/-- The last value a body assigns to a key (later entries shadow earlier
ones, matching JavaScript object/JSON semantics for duplicate keys). -/
def lastVal (data : List (String × String)) (k : String) : Option String :=
  match data with
  | [] => none
  | kv :: rest =>
      match lastVal rest k with
      | some v => some v
      | none => if kv.1 = k then some kv.2 else none

/-! ## Theorems -/

/-- C1 counterexample: the claim is false for the `/api/products/:id`
endpoints — an unauthenticated PUT (resp. DELETE) is not rejected with 401:
the handler fetches the record (the first traced effect) and completes the
mutation with status 200. -/
theorem c1_products_unauthenticated_not_rejected :
    (putApiProducts none "p1" putBodyFull db0).status = 200 ∧
    (putApiProducts none "p1" putBodyFull db0).trace.head? = some (.fetch "products" "p1") ∧
    (deleteApiProducts none "p1" (fun _ => false) db0).status = 200 ∧
    (deleteApiProducts none "p1" (fun _ => false) db0).trace.head? =
      some (.fetch "products" "p1") := by
  refine ⟨rfl, rfl, rfl, rfl⟩

/-- C1 (amended): on `/data/:id`, an unauthenticated PUT or DELETE is answered
401 before any storage effect (empty trace, store untouched); the
`/api/products/:id` mutation handlers, however, have no authentication gate
and never answer 401 to an unauthenticated caller. -/
theorem c1_unauthenticated_mutation_gate (rid pid : String)
    (body : List (String × String)) (pbody : ProductPutBody)
    (blobFails : String → Bool) (db : DB) :
    putData none rid body db = ⟨401, db, []⟩ ∧
    deleteData none rid blobFails db = ⟨401, db, []⟩ ∧
    (putApiProducts none pid pbody db).status ≠ 401 ∧
    (deleteApiProducts none pid blobFails db).status ≠ 401 := by
  refine ⟨rfl, rfl, ?_, ?_⟩
  · cases h : findProduct db pid <;> simp [putApiProducts, h, productForbidden]
  · cases h : findProduct db pid <;> simp [deleteApiProducts, h, productForbidden]

/-- C8 counterexample: an unauthenticated `POST /data` does not succeed with
201 — it is rejected with 401 and nothing is created. -/
theorem c8_post_data_requires_auth :
    postData none [("name", "Rex")] "u9" "c9" true db0 = ⟨401, db0, []⟩ := rfl

/-- C8 (amended): `POST /data` requires authentication — an unauthenticated
request is answered 401 with no effect, whatever the storage health.
`POST /api/products` does not require authentication: an unauthenticated
create succeeds with 201, appending exactly one product whose owner is none,
and fails only on a storage fault (500, store untouched). -/
theorem c8_create_auth_policy (body : List (String × String)) (b : ProductPostBody)
    (files : List String) (fu fc fp : String) (db : DB) :
    postData none body fu fc true db = ⟨401, db, []⟩ ∧
    postData none body fu fc false db = ⟨401, db, []⟩ ∧
    (postApiProducts none b files fu fp true db).status = 201 ∧
    (postApiProducts none b files fu fp true db).db.products =
      db.products ++ [mkProduct fp b files none] ∧
    (mkProduct fp b files none).ownerId = none ∧
    postApiProducts none b files fu fp false db = ⟨500, db, []⟩ := by
  refine ⟨rfl, rfl, rfl, rfl, rfl, rfl⟩

/-- C2 counterexample: the claim is false on the `/api/products/:id`
endpoints — a delete of the ownerless product `p2` by an authenticated caller
is not answered 403: it succeeds with 200 and removes the record (the update
endpoint likewise answers 200). -/
theorem c2_ownerless_product_mutable :
    (deleteApiProducts (some aliceOidc) "p2" (fun _ => false) db0).status = 200 ∧
    findProduct (deleteApiProducts (some aliceOidc) "p2" (fun _ => false) db0).db "p2" =
      none ∧
    (putApiProducts (some aliceOidc) "p2" putBodyFull db0).status = 200 := by
  refine ⟨rfl, by decide, rfl⟩

/-- C2 (amended): on the `/data/:id` endpoints, a record whose owner relation
resolves to nothing can never be updated or deleted — every authenticated
mutation attempt is answered 403 and the store is untouched.  (On the
`/api/products/:id` endpoints the ownership guard is skipped when the record
has no owner, so ownerless products remain mutable there.) -/
theorem c2_data_ownerless_denied (caller : OidcUser) (rid : String)
    (body : List (String × String)) (blobFails : String → Bool) (db : DB) (c : Cat)
    (hfind : findCat db rid = some c) (hown : catOwner db c = none) :
    putData (some caller) rid body db = ⟨403, db, [.fetch "cats" rid]⟩ ∧
    deleteData (some caller) rid blobFails db = ⟨403, db, [.fetch "cats" rid]⟩ := by
  constructor
  · simp [putData, hfind, hown]
  · simp [deleteData, hfind, hown]

/-- C2 witness: the amended theorem applied to the ownerless cat `c2` of the
fixture store. -/
theorem c2_data_ownerless_denied_witness :
    putData (some aliceOidc) "c2" scenarioBody db0 = ⟨403, db0, [.fetch "cats" "c2"]⟩ ∧
    deleteData (some aliceOidc) "c2" (fun _ => true) db0 =
      ⟨403, db0, [.fetch "cats" "c2"]⟩ :=
  c2_data_ownerless_denied aliceOidc "c2" scenarioBody (fun _ => true) db0 catStray
    (by decide) (by decide)

/-- C3: on every mutation endpoint, an authenticated caller whose external
subject identifier (`sub`) differs from the resolved owner's subject
identifier is answered 403 and the store is left unchanged; the comparison
the handlers perform is `sub` equality, never internal id equality. -/
theorem c3_wrong_subject_denied (caller : OidcUser) (rid pid : String)
    (body : List (String × String)) (pbody : ProductPutBody)
    (blobFails : String → Bool) (db : DB) (c : Cat) (p : Product) (ocat oprod : User)
    (hc : findCat db rid = some c) (hoc : catOwner db c = some ocat)
    (hne : ocat.sub ≠ caller.sub)
    (hp : findProduct db pid = some p) (hop : productOwner db p = some oprod)
    (hpe : oprod.sub ≠ caller.sub) :
    putData (some caller) rid body db = ⟨403, db, [.fetch "cats" rid]⟩ ∧
    deleteData (some caller) rid blobFails db = ⟨403, db, [.fetch "cats" rid]⟩ ∧
    putApiProducts (some caller) pid pbody db = ⟨403, db, [.fetch "products" pid]⟩ ∧
    deleteApiProducts (some caller) pid blobFails db =
      ⟨403, db, [.fetch "products" pid]⟩ := by
  refine ⟨?_, ?_, ?_, ?_⟩
  · simp [putData, hc, hoc, hne]
  · simp [deleteData, hc, hoc, hne]
  · simp [putApiProducts, hp, hop, productForbidden, hpe]
  · simp [deleteApiProducts, hp, hop, productForbidden, hpe]

/-- C3 witness: Bob (subject `auth0|bob`) is denied on Alice's cat `abc123`
and Alice's product `p1`, on all four mutation endpoints. -/
theorem c3_wrong_subject_denied_witness :
    putData (some bobOidc) "abc123" scenarioBody db0 =
      ⟨403, db0, [.fetch "cats" "abc123"]⟩ ∧
    deleteData (some bobOidc) "abc123" (fun _ => false) db0 =
      ⟨403, db0, [.fetch "cats" "abc123"]⟩ ∧
    putApiProducts (some bobOidc) "p1" putBodyFull db0 =
      ⟨403, db0, [.fetch "products" "p1"]⟩ ∧
    deleteApiProducts (some bobOidc) "p1" (fun _ => false) db0 =
      ⟨403, db0, [.fetch "products" "p1"]⟩ :=
  c3_wrong_subject_denied bobOidc "abc123" "p1" scenarioBody putBodyFull
    (fun _ => false) db0 catAbc prodP1 aliceUser aliceUser
    (by decide) (by decide) (by decide) (by decide) (by decide) (by decide)

/-- Helper: once a database delete has been seen, the cat blob cleanup keeps
the delete-before-blobs check true. -/
theorem dbDelFirst_catBlob (c : Cat) (f : String → Bool) :
    dbDelFirst true (catBlobTrace c f) = true := by
  cases h : c.imageUrl <;> simp [catBlobTrace, h, dbDelFirst]

/-- Helper: the blob locators attempted by the cat cleanup are exactly the
record's (truthy) image locator. -/
theorem blobUrls_catBlob (c : Cat) (f : String → Bool) :
    blobUrls (catBlobTrace c f) = c.imageUrl.toList := by
  cases h : c.imageUrl <;> simp [catBlobTrace, h, blobUrls]

/-- Helper: the blob locators of a per-image cleanup loop are the image list. -/
theorem blobUrls_map_blobDel (urls : List String) (f : String → Bool)
    (rest : List Effect) :
    blobUrls (urls.map (fun url => .blobDel url (f url)) ++ rest) =
      urls ++ blobUrls rest := by
  induction urls with
  | nil => simp
  | cons a t ih => simpa [blobUrls] using ih

/-- Helper: after a delete-by-id, no row with that id is findable (cats). -/
theorem findCat_deleteCats (cats : List Cat) (rid : String) :
    (deleteCats cats rid).find? (fun c => c.id == rid) = none := by
  rw [List.find?_eq_none]
  intro x hx
  simp only [deleteCats, List.mem_filter] at hx
  simpa using hx.2

/-- Helper: after a delete-by-id, no row with that id is findable (products). -/
theorem findProduct_deleteProducts (ps : List Product) (pid : String) :
    (deleteProducts ps pid).find? (fun p => p.id == pid) = none := by
  rw [List.find?_eq_none]
  intro x hx
  simp only [deleteProducts, List.mem_filter] at hx
  simpa using hx.2

/-- C4 counterexample: in an authorized `DELETE /api/products/:id`, both blob
removals are traced before the database delete, so the database delete does
not precede the asset-removal calls. -/
theorem c4_products_delete_after_blobs :
    (deleteApiProducts (some aliceOidc) "p1" (fun _ => false) db0).trace =
      [.fetch "products" "p1", .blobDel "https://blob/p1a.png" false,
       .blobDel "https://blob/p1b.png" false, .dbDelete "products" "p1"] ∧
    dbDelFirst false
      (deleteApiProducts (some aliceOidc) "p1" (fun _ => false) db0).trace = false := by
  exact ⟨by decide, by decide⟩

/-- C4 (amended): in an authorized `DELETE /data/:id` the database delete is
traced before the asset removal; in an authorized `DELETE /api/products/:id`
the order is reversed — every asset-removal call precedes the database
delete. -/
theorem c4_delete_effect_order (caller : OidcUser) (rid pid : String)
    (blobFails : String → Bool) (db : DB) (c : Cat) (p : Product) (ocat oprod : User)
    (hc : findCat db rid = some c) (hoc : catOwner db c = some ocat)
    (heq : ocat.sub = caller.sub)
    (hp : findProduct db pid = some p) (hop : productOwner db p = some oprod)
    (hpeq : oprod.sub = caller.sub) :
    (deleteData (some caller) rid blobFails db).trace =
      .fetch "cats" rid :: .dbDelete "cats" rid :: catBlobTrace c blobFails ∧
    dbDelFirst false (deleteData (some caller) rid blobFails db).trace = true ∧
    (deleteApiProducts (some caller) pid blobFails db).trace =
      .fetch "products" pid ::
        (productBlobTrace p blobFails ++ [.dbDelete "products" pid]) := by
  have hd : (deleteData (some caller) rid blobFails db).trace =
      .fetch "cats" rid :: .dbDelete "cats" rid :: catBlobTrace c blobFails := by
    simp [deleteData, hc, hoc, heq]
  refine ⟨hd, ?_, ?_⟩
  · rw [hd]
    simp [dbDelFirst, dbDelFirst_catBlob]
  · simp [deleteApiProducts, hp, hop, productForbidden, hpeq]

/-- C4 witness: the amended theorem applied to Alice deleting her cat and her
product in the fixture store. -/
theorem c4_delete_effect_order_witness :
    (deleteData (some aliceOidc) "abc123" (fun _ => false) db0).trace =
      .fetch "cats" "abc123" :: .dbDelete "cats" "abc123" ::
        catBlobTrace catAbc (fun _ => false) ∧
    dbDelFirst false (deleteData (some aliceOidc) "abc123" (fun _ => false) db0).trace =
      true ∧
    (deleteApiProducts (some aliceOidc) "p1" (fun _ => false) db0).trace =
      .fetch "products" "p1" ::
        (productBlobTrace prodP1 (fun _ => false) ++ [.dbDelete "products" "p1"]) :=
  c4_delete_effect_order aliceOidc "abc123" "p1" (fun _ => false) db0 catAbc prodP1
    aliceUser aliceUser (by decide) (by decide) (by decide) (by decide) (by decide)
    (by decide)

/-- C5: an authorized delete answers 200 whatever subset of the blob-removal
calls fails; the record is absent from storage afterwards and every
associated asset locator got its removal attempt — on both endpoint
families. -/
theorem c5_delete_tolerates_blob_failures (caller : OidcUser) (rid pid : String)
    (blobFails : String → Bool) (db : DB) (c : Cat) (p : Product) (ocat oprod : User)
    (hc : findCat db rid = some c) (hoc : catOwner db c = some ocat)
    (heq : ocat.sub = caller.sub)
    (hp : findProduct db pid = some p) (hop : productOwner db p = some oprod)
    (hpeq : oprod.sub = caller.sub) :
    (deleteData (some caller) rid blobFails db).status = 200 ∧
    findCat (deleteData (some caller) rid blobFails db).db rid = none ∧
    blobUrls (deleteData (some caller) rid blobFails db).trace = c.imageUrl.toList ∧
    (deleteApiProducts (some caller) pid blobFails db).status = 200 ∧
    findProduct (deleteApiProducts (some caller) pid blobFails db).db pid = none ∧
    blobUrls (deleteApiProducts (some caller) pid blobFails db).trace = p.images := by
  have hd : deleteData (some caller) rid blobFails db =
      ⟨200, { db with cats := deleteCats db.cats rid },
        .fetch "cats" rid :: .dbDelete "cats" rid :: catBlobTrace c blobFails⟩ := by
    simp [deleteData, hc, hoc, heq]
  have hpd : deleteApiProducts (some caller) pid blobFails db =
      ⟨200, { db with products := deleteProducts db.products pid },
        .fetch "products" pid ::
          (productBlobTrace p blobFails ++ [.dbDelete "products" pid])⟩ := by
    simp [deleteApiProducts, hp, hop, productForbidden, hpeq]
  refine ⟨by rw [hd], ?_, ?_, by rw [hpd], ?_, ?_⟩
  · rw [hd]
    exact findCat_deleteCats db.cats rid
  · rw [hd]
    simp [blobUrls, blobUrls_catBlob]
  · rw [hpd]
    exact findProduct_deleteProducts db.products pid
  · rw [hpd]
    simp [blobUrls, productBlobTrace, blobUrls_map_blobDel]

/-- C5 witness: Alice's deletes with every blob-removal call failing
(`blobFails` constantly true, so K = N on both records). -/
theorem c5_delete_tolerates_blob_failures_witness :
    (deleteData (some aliceOidc) "abc123" (fun _ => true) db0).status = 200 ∧
    findCat (deleteData (some aliceOidc) "abc123" (fun _ => true) db0).db "abc123" =
      none ∧
    blobUrls (deleteData (some aliceOidc) "abc123" (fun _ => true) db0).trace =
      catAbc.imageUrl.toList ∧
    (deleteApiProducts (some aliceOidc) "p1" (fun _ => true) db0).status = 200 ∧
    findProduct (deleteApiProducts (some aliceOidc) "p1" (fun _ => true) db0).db "p1" =
      none ∧
    blobUrls (deleteApiProducts (some aliceOidc) "p1" (fun _ => true) db0).trace =
      prodP1.images :=
  c5_delete_tolerates_blob_failures aliceOidc "abc123" "p1" (fun _ => true) db0
    catAbc prodP1 aliceUser aliceUser (by decide) (by decide) (by decide) (by decide)
    (by decide) (by decide)

/-- Helper: dropping entries for a different key does not change a lookup. -/
theorem lookup_filter_ne (fs : List (String × String)) (k k2 : String)
    (h : ¬ k = k2) :
    List.lookup k (fs.filter (fun kv => kv.1 != k2)) = List.lookup k fs := by
  induction fs with
  | nil => rfl
  | cons kv t ih =>
      obtain ⟨a, b⟩ := kv
      by_cases hk : a = k2
      · subst hk
        have hka : (k == a) = false := by simp [h]
        simp [List.filter_cons, List.lookup, hka, ih]
      · by_cases hka : k = a
        · subst hka
          simp [List.filter_cons, hk, List.lookup]
        · simp [List.filter_cons, hk, List.lookup, hka, ih]

/-- Helper: lookup after writing one field. -/
theorem lookup_setField (fs : List (String × String)) (k k2 v : String) :
    List.lookup k (setField fs k2 v) =
      if k = k2 then some v else List.lookup k fs := by
  by_cases h : k = k2
  · subst h
    simp [setField, List.lookup]
  · have hb : (k == k2) = false := by simp [h]
    simp [setField, List.lookup, h, hb, lookup_filter_ne fs k k2 h]

/-- Helper: lookup after applying a whole update body: a key the body assigns
reads its last assigned value, any other key reads its old value. -/
theorem lookup_applyData (data : List (String × String))
    (fs : List (String × String)) (k : String) :
    List.lookup k (applyData fs data) =
      match lastVal data k with
      | some v => some v
      | none => List.lookup k fs := by
  induction data generalizing fs with
  | nil => rfl
  | cons kv rest ih =>
      obtain ⟨a, b⟩ := kv
      have happ : applyData fs ((a, b) :: rest) = applyData (setField fs a b) rest := rfl
      rw [happ, ih]
      cases hl : lastVal rest k with
      | some v => simp [lastVal, hl]
      | none =>
          rw [lookup_setField]
          by_cases hk : k = a
          · subst hk
            simp [lastVal, hl]
          · have hak : ¬ a = k := fun hh => hk hh.symm
            simp [lastVal, hl, hk, hak]

/-- Helper: the updated row is findable under its unchanged id. -/
theorem findCat_updateCats (cats : List Cat) (rid : String)
    (data : List (String × String)) (c : Cat)
    (h : cats.find? (fun x => x.id == rid) = some c) :
    (updateCats cats rid data).find? (fun x => x.id == rid) =
      some { c with fields := applyData c.fields data } := by
  induction cats with
  | nil => simp at h
  | cons d t ih =>
      by_cases hd : d.id = rid
      · have hcd : d = c := by
          simpa [List.find?_cons, hd] using h
        subst hcd
        simp [updateCats, List.find?_cons, hd]
      · have ht : t.find? (fun x => x.id == rid) = some c := by
          simpa [List.find?_cons, hd] using h
        simpa [updateCats, List.find?_cons, hd] using ih ht

/-- C6: an update by the owning caller answers 200 and stores a record whose
`id` and `ownerId` are exactly their pre-call values — the client-supplied
`id`, `_id`, `ownerId` and `owner` entries are stripped before the write —
while every other supplied field reads back its (last) supplied value and
unsupplied fields keep their old values. -/
theorem c6_update_strips_identity_fields (caller : OidcUser) (rid : String)
    (body : List (String × String)) (db : DB) (c : Cat) (ow : User)
    (hc : findCat db rid = some c) (how : catOwner db c = some ow)
    (heq : ow.sub = caller.sub) :
    (putData (some caller) rid body db).status = 200 ∧
    findCat (putData (some caller) rid body db).db rid =
      some { c with fields := applyData c.fields (requestBody body) } ∧
    ({ c with fields := applyData c.fields (requestBody body) } : Cat).id = c.id ∧
    ({ c with fields := applyData c.fields (requestBody body) } : Cat).ownerId =
      c.ownerId ∧
    (∀ k v, lastVal (requestBody body) k = some v →
      getField { c with fields := applyData c.fields (requestBody body) } k = some v) ∧
    (∀ k, lastVal (requestBody body) k = none →
      getField { c with fields := applyData c.fields (requestBody body) } k =
        getField c k) := by
  have hput : putData (some caller) rid body db =
      ⟨200, { db with cats := updateCats db.cats rid (requestBody body) },
        [.fetch "cats" rid, .dbUpdate "cats" rid]⟩ := by
    simp [putData, hc, how, heq]
  refine ⟨by rw [hput], ?_, rfl, rfl, ?_, ?_⟩
  · rw [hput]
    exact findCat_updateCats db.cats rid (requestBody body) c hc
  · intro k v hkv
    simp [getField, lookup_applyData, hkv]
  · intro k hk
    simp [getField, lookup_applyData, hk]

/-- C6 witness: the spec scenario — Alice sends
`\x7b id: "zzz", ownerId: "other", title: "New Title" \x7d` for her cat `abc123`;
the response is 200, the stored row keeps id and owner and carries the new
title. -/
theorem c6_update_strips_identity_fields_witness :
    (putData (some aliceOidc) "abc123" scenarioBody db0).status = 200 ∧
    findCat (putData (some aliceOidc) "abc123" scenarioBody db0).db "abc123" =
      some { catAbc with fields := applyData catAbc.fields (requestBody scenarioBody) } ∧
    getField { catAbc with fields := applyData catAbc.fields (requestBody scenarioBody) }
      "title" = some "New Title" :=
  have h := c6_update_strips_identity_fields aliceOidc "abc123" scenarioBody db0
    catAbc aliceUser (by decide) (by decide) (by decide)
  ⟨h.1, h.2.1, h.2.2.2.2.1 "title" "New Title" (by decide)⟩

/-- Helper: a map that does not change a filter predicate commutes with that
filter. -/
theorem filter_map_of_pres {α : Type} (F : α → α) (P : α → Bool)
    (hpres : ∀ a, P (F a) = P a) (l : List α) :
    (l.map F).filter P = (l.filter P).map F := by
  induction l with
  | nil => rfl
  | cons a t ih =>
      cases h : P a with
      | true => simp [List.filter_cons, hpres, h, ih]
      | false => simp [List.filter_cons, hpres, h, ih]

/-- Helper: upserting into a store holding at most one row for `sub` leaves
exactly one row for `sub`, carrying the supplied profile fields. -/
theorem userUpsert_filter (users : List User) (f sub : String) (e n p : Option String)
    (huniq : (users.filter (fun u => u.sub == sub)).length ≤ 1) :
    ∃ uid, (userUpsert users f sub e n p).1.filter (fun u => u.sub == sub) =
      [⟨uid, sub, e, n, p⟩] := by
  cases hf : users.find? (fun u => u.sub == sub) with
  | none =>
      have hnil : users.filter (fun u => u.sub == sub) = [] := by
        rw [List.filter_eq_nil_iff]
        intro a ha
        have := List.find?_eq_none.mp hf a ha
        simpa using this
      refine ⟨f, ?_⟩
      simp [userUpsert, hf, List.filter_append, hnil]
  | some u0 =>
      have hmem : u0 ∈ users := List.mem_of_find?_eq_some hf
      have hpred : (u0.sub == sub) = true := List.find?_some (p := fun u : User => u.sub == sub) hf
      have hmemf : u0 ∈ users.filter (fun u => u.sub == sub) :=
        List.mem_filter.mpr ⟨hmem, hpred⟩
      have hone : users.filter (fun u => u.sub == sub) = [u0] := by
        cases hl : users.filter (fun u => u.sub == sub) with
        | nil =>
            rw [hl] at hmemf
            simp at hmemf
        | cons x xs =>
            cases xs with
            | nil =>
                rw [hl] at hmemf
                simp at hmemf
                rw [hmemf]
            | cons y ys =>
                exfalso
                rw [hl] at huniq
                simp at huniq
      have hs : u0.sub = sub := by simpa using hpred
      have hpres : ∀ a : User,
          (((fun v : User =>
              if v.sub == sub then { v with email := e, name := n, picture := p }
              else v) a).sub == sub) = (a.sub == sub) := by
        intro a
        cases h : (a.sub == sub) <;> simp [h]
      refine ⟨u0.id, ?_⟩
      rw [show (userUpsert users f sub e n p).1 = users.map (fun v =>
            if v.sub == sub then { v with email := e, name := n, picture := p } else v)
          from by simp [userUpsert, hf]]
      rw [filter_map_of_pres _ _ hpres users, hone]
      rw [List.map_cons, List.map_nil]
      simp [hpred, hs]

/-- Helper: the upsert's returned row is a member of the resulting store. -/
theorem userUpsert_mem (users : List User) (f sub : String) (e n p : Option String) :
    (userUpsert users f sub e n p).2 ∈ (userUpsert users f sub e n p).1 := by
  cases hf : users.find? (fun u => u.sub == sub) with
  | none => simp [userUpsert, hf]
  | some u0 =>
      have hmem : u0 ∈ users := List.mem_of_find?_eq_some hf
      have hpred : (u0.sub == sub) = true := List.find?_some (p := fun u : User => u.sub == sub) hf
      simp only [userUpsert, hf]
      exact List.mem_map.mpr ⟨u0, hmem, by simp [hpred]⟩

/-- C7: resolving the same external subject identifier twice — the second call
with different supplied profile fields — leaves exactly one stored identity
for that subject, whose mutable profile fields (email, name, picture) are the
second call's supplied values as the handler stores them (`x || null`). -/
theorem c7_resolve_twice_idempotent (sub : String) (e1 n1 p1 e2 n2 p2 : Option String)
    (users : List User) (f1 f2 : String) (hsub : ¬ sub = "")
    (huniq : (users.filter (fun u => u.sub == sub)).length ≤ 1) :
    ∃ uid,
      ((ensureUser (some ⟨sub, e2, n2, p2⟩)
          (ensureUser (some ⟨sub, e1, n1, p1⟩) users f1).2.1 f2).2.1).filter
        (fun u => u.sub == sub) =
      [⟨uid, sub, jsOrNull e2, jsOrNull n2, jsOrNull p2⟩] := by
  have h1 : (ensureUser (some ⟨sub, e1, n1, p1⟩) users f1).2.1 =
      (userUpsert users f1 sub (jsOrNull e1) (jsOrNull n1) (jsOrNull p1)).1 := by
    simp [ensureUser, hsub]
  obtain ⟨uid1, hu1⟩ :=
    userUpsert_filter users f1 sub (jsOrNull e1) (jsOrNull n1) (jsOrNull p1) huniq
  have huniq1 :
      (((ensureUser (some ⟨sub, e1, n1, p1⟩) users f1).2.1).filter
        (fun u => u.sub == sub)).length ≤ 1 := by
    rw [h1, hu1]
    simp
  obtain ⟨uid2, hu2⟩ :=
    userUpsert_filter ((ensureUser (some ⟨sub, e1, n1, p1⟩) users f1).2.1) f2 sub
      (jsOrNull e2) (jsOrNull n2) (jsOrNull p2) huniq1
  refine ⟨uid2, ?_⟩
  rw [show (ensureUser (some ⟨sub, e2, n2, p2⟩)
        (ensureUser (some ⟨sub, e1, n1, p1⟩) users f1).2.1 f2).2.1 =
      (userUpsert ((ensureUser (some ⟨sub, e1, n1, p1⟩) users f1).2.1) f2 sub
        (jsOrNull e2) (jsOrNull n2) (jsOrNull p2)).1 from by simp [ensureUser, hsub]]
  exact hu2

/-- C7 witness: Alice's subject resolved twice into an empty store, with fresh
profile fields on the second call. -/
theorem c7_resolve_twice_idempotent_witness :
    ∃ uid,
      ((ensureUser (some ⟨"auth0|alice", some "new@x", some "New Alice", none⟩)
          (ensureUser (some ⟨"auth0|alice", some "old@x", some "Old Alice", some "pic0"⟩)
            [] "u1").2.1 "u2").2.1).filter
        (fun u => u.sub == "auth0|alice") =
      [⟨uid, "auth0|alice", jsOrNull (some "new@x"), jsOrNull (some "New Alice"),
        jsOrNull none⟩] :=
  c7_resolve_twice_idempotent "auth0|alice" (some "old@x") (some "Old Alice")
    (some "pic0") (some "new@x") (some "New Alice") none [] "u1" "u2"
    (by decide) (by decide)

/-- C9: identity resolution with an absent principal, or one whose subject
identifier is empty, fails with the contract-violation error and performs no
storage write (store unchanged, empty trace); with a non-empty subject it
performs exactly one storage write — the single atomic upsert — and returns
an identity present in the resulting store. -/
theorem c9_resolver_contract (u v : OidcUser) (users : List User) (f : String)
    (hu : u.sub = "") (hv : ¬ v.sub = "") :
    ensureUser none users f =
      (.error "Cannot ensure user without a valid Auth0 sub", users, []) ∧
    ensureUser (some u) users f =
      (.error "Cannot ensure user without a valid Auth0 sub", users, []) ∧
    (ensureUser (some v) users f).2.2 = [.userUpsert v.sub] ∧
    ∃ w, (ensureUser (some v) users f).1 = .ok w ∧
      w ∈ (ensureUser (some v) users f).2.1 := by
  refine ⟨rfl, by simp [ensureUser, hu], by simp [ensureUser, hv], ?_⟩
  refine ⟨(userUpsert users f v.sub (jsOrNull v.email) (jsOrNull v.name)
      (jsOrNull v.picture)).2, ?_, ?_⟩
  · simp [ensureUser, hv]
  · simpa [ensureUser, hv] using
      userUpsert_mem users f v.sub (jsOrNull v.email) (jsOrNull v.name)
        (jsOrNull v.picture)

/-- C9 witness: an empty-subject principal and Alice's principal against the
empty store. -/
theorem c9_resolver_contract_witness :
    ensureUser none [] "u1" =
      (.error "Cannot ensure user without a valid Auth0 sub", [], []) ∧
    ensureUser (some ⟨"", none, none, none⟩) [] "u1" =
      (.error "Cannot ensure user without a valid Auth0 sub", [], []) ∧
    (ensureUser (some aliceOidc) [] "u1").2.2 = [.userUpsert aliceOidc.sub] ∧
    ∃ w, (ensureUser (some aliceOidc) [] "u1").1 = .ok w ∧
      w ∈ (ensureUser (some aliceOidc) [] "u1").2.1 :=
  c9_resolver_contract ⟨"", none, none, none⟩ aliceOidc [] "u1" rfl (by decide)

/-- Helper: the empty needle occurs in every haystack. -/
theorem charsContain_nil (hay : List Char) : charsContain [] hay = true := by
  cases hay <;> simp [charsContain, charsPrefix]

/-- C10: `GET /data` returns at most 100 records; `GET /search` returns at
most 10 records, each matching the case-insensitive substring filter of the
query terms against the name field (an absent terms parameter defaults to
the empty string, which matches every record), ordered ascending by name. -/
theorem c10_list_and_search_shape (db : DB) (terms : Option String) :
    (getData db).length ≤ 100 ∧
    (getSearch terms db).length ≤ 10 ∧
    (getSearch terms db).all (fun c => containsCI c.name (jsOrStr terms "")) = true ∧
    List.Sorted (fun a b : Cat => a.name ≤ b.name) (getSearch terms db) ∧
    ∀ c : Cat, containsCI c.name (jsOrStr none "") = true := by
  refine ⟨?_, ?_, ?_, ?_, ?_⟩
  · simp [getData, List.length_take]
  · simp [getSearch, List.length_take]
  · rw [List.all_eq_true]
    intro c hc
    have h1 : c ∈ sortByName (db.cats.filter
        (fun c => containsCI c.name (jsOrStr terms ""))) :=
      List.mem_of_mem_take hc
    have h2 : c ∈ db.cats.filter (fun c => containsCI c.name (jsOrStr terms "")) :=
      (List.perm_insertionSort _ _).subset h1
    exact (List.mem_filter.mp h2).2
  · have hs : List.Sorted (fun a b : Cat => a.name ≤ b.name)
        (sortByName (db.cats.filter (fun c => containsCI c.name (jsOrStr terms "")))) :=
      List.sorted_insertionSort _ _
    exact List.Pairwise.sublist (List.take_sublist _ _) hs
  · intro c
    show charsContain (("".toList).map Char.toLower) (c.name.toList.map Char.toLower) = true
    exact charsContain_nil _

end ReVamp
